import Mathlib

/-!
Shallow embedding of the data-product catalog service
(`app/models.py`, `app/data_product_service.py`).

Modelling conventions:

* Timestamps (`datetime`) are natural numbers.  The wall clock
  (`datetime.utcnow()`) is modelled as a logical clock stored in the
  database state: every successful mutating operation reads the clock as
  "now" for all of its timestamp fields and advances it by one, so time
  strictly advances between operations and all timestamps taken inside a
  single operation coincide (each operation is a single atomic unit).
* The table is a list of rows in insertion order; primary keys are
  assigned from a counter.  The storage engine below the session
  abstraction (`app/database.py` is not part of the sources) enforces the
  column constraints declared in `models.py`: `schema_name` is UNIQUE and
  NOT NULL (line 12; the table layout also appears in the spec, §6).
  `session.commit()` of a write violating them raises `IntegrityError`
  and persists nothing; this is modelled by `insertViolation` /
  `updateViolation` checks on the commit path, yielding the dedicated
  `integrityError` value.  Constraints on the other columns are not
  modelled (the properties below never turn on them).
* Python attributes of a model instance can be assigned `None` at run
  time regardless of their declared type (no validation on assignment),
  so the stored `schema_name`, `owner` and `creation_date` fields are
  `Option`-typed here even though `models.py` declares them non-optional.
* `DataProductUpdate` uses pydantic's `exclude_unset` semantics: a field
  can be unset (`none`), explicitly set to null (`some none`), or set to
  a value (`some (some v)`).
* `raise ValueError(... already exists ...)` is modelled by `Except`
  with a dedicated error value, distinguishable from any generic error.
-/

/-- A stored row of the `data_products` table (`models.py`, `DataProduct`). -/
structure DataProduct where
  id : Option Nat
  schema_name : Option String
  description : Option String
  owner : Option String
  creation_date : Option Nat
  created_at : Nat
  updated_at : Nat
deriving Repr, DecidableEq

/-- Creation request (`models.py`, `DataProductCreate`): `schema_name` and
`owner` required, `description` and `creation_date` optional. -/
structure DataProductCreate where
  schema_name : String
  description : Option String
  owner : String
  creation_date : Option Nat
deriving Repr, DecidableEq

/-- Partial update request (`models.py`, `DataProductUpdate`).  Every field is
optional *and* tracks whether it was explicitly supplied (pydantic
`exclude_unset`): `none` = unset, `some none` = explicitly null,
`some (some v)` = set to `v`. -/
structure DataProductUpdate where
  schema_name : Option (Option String)
  description : Option (Option String)
  owner : Option (Option String)
  creation_date : Option (Option Nat)
deriving Repr, DecidableEq

/-- The database state: table rows in insertion order, the autoincrement
counter for primary keys, and the logical wall clock. -/
structure DBState where
  rows : List DataProduct
  nextId : Nat
  clock : Nat
deriving Repr, DecidableEq

/-- The empty database (fresh store). -/
def initState : DBState := { rows := [], nextId := 1, clock := 0 }

/-- The failures an operation can raise: `alreadyExists` is the service's
`ValueError("Data product with schema name '...' already exists")`,
distinguishable from `integrityError`, the storage engine's
`IntegrityError` raised by `session.commit()` when a write violates a
column constraint (an infrastructure failure). -/
inductive SvcError where
  | alreadyExists : String → SvcError
  | integrityError : SvcError
deriving Repr, DecidableEq

/-- `ORDER BY creation_date DESC` comparison on nullable dates
(nulls sort last in descending order). -/
def dateGe (a b : Option Nat) : Bool :=
  match a, b with
  | some x, some y => decide (y ≤ x)
  | some _, none => true
  | none, some _ => false
  | none, none => true

/-- Row comparison used by `order_by(desc(DataProduct.creation_date))`. -/
def byDateDesc (a b : DataProduct) : Bool :=
  dateGe a.creation_date b.creation_date

/-- `get_all_data_products`: all rows ordered by `creation_date` descending. -/
def get_all_data_products (s : DBState) : List DataProduct :=
  s.rows.mergeSort byDateDesc

/-- `get_data_product_by_id`: `None` id yields `None`; otherwise a primary-key
point lookup (`session.get`). -/
def get_data_product_by_id (s : DBState) (i : Option Nat) : Option DataProduct :=
  match i with
  | none => none
  | some n => s.rows.find? (fun r => r.id == some n)

/-- `get_data_product_by_schema_name`: a falsy (empty) name yields `None`
(`if not schema_name`); otherwise the first row whose `schema_name` equals the
argument exactly (`.where(DataProduct.schema_name == schema_name).first()`;
a SQL comparison of a NULL column with a string never matches). -/
def get_data_product_by_schema_name (s : DBState) (name : String) : Option DataProduct :=
  if name = "" then none
  else s.rows.find? (fun r => r.schema_name == some name)

/-- Commit-time enforcement of the `schema_name` column constraints
(`models.py` line 12: `unique=True` on a non-Optional field, hence UNIQUE and
NOT NULL) for an INSERT: the new row's `schema_name` must be non-null, and no
existing row may hold the same value. -/
def insertViolation (rows : List DataProduct) (row : DataProduct) : Bool :=
  match row.schema_name with
  | none => true
  | some v => rows.any (fun x => x.schema_name == some v)

/-- Commit-time enforcement of the `schema_name` column constraints for an
UPDATE: the updated tuple's `schema_name` must be non-null, and if its value
changed, no other row may hold the new value (an unchanged value leaves the
unique index entry untouched and cannot newly conflict). -/
def updateViolation (rows : List DataProduct) (rOld rNew : DataProduct) : Bool :=
  match rNew.schema_name with
  | none => true
  | some v =>
    if some v = rOld.schema_name then false
    else rows.any (fun x => x.schema_name == some v)

/-- `create_data_product`: reject when the schema name already resolves to a
record, otherwise build the row (defaulting `creation_date` to now) and
commit it — the storage engine raises `IntegrityError` if the insert violates
the `schema_name` constraints, else the stored row is returned with `id`,
`created_at`, `updated_at` populated. -/
def create_data_product (s : DBState) (d : DataProductCreate) :
    Except SvcError (DBState × DataProduct) :=
  match get_data_product_by_schema_name s d.schema_name with
  | some _ => .error (.alreadyExists d.schema_name)
  | none =>
    let now := s.clock
    let row : DataProduct :=
      { id := some s.nextId
        schema_name := some d.schema_name
        description := d.description
        owner := some d.owner
        creation_date := some (d.creation_date.getD now)
        created_at := now
        updated_at := now }
    if insertViolation s.rows row then .error .integrityError
    else .ok ({ rows := s.rows ++ [row], nextId := s.nextId + 1, clock := s.clock + 1 }, row)

/-- The merge step of `update_data_product`: `updates.model_dump(exclude_unset=True)`
followed by `setattr` for each supplied field — an explicitly-null field is
supplied and overwrites the stored value with null. -/
def applyUpdates (u : DataProductUpdate) (r : DataProduct) : DataProduct :=
  let r1 := match u.schema_name with
    | none => r
    | some v => { r with schema_name := v }
  let r2 := match u.description with
    | none => r1
    | some v => { r1 with description := v }
  let r3 := match u.owner with
    | none => r2
    | some v => { r2 with owner := v }
  match u.creation_date with
  | none => r3
  | some v => { r3 with creation_date := v }

/-- Replace the first element satisfying `p` (the row object returned by
`session.get` is mutated in place; its position in the table is unchanged). -/
def replaceFirst (p : DataProduct → Bool) (a : DataProduct) :
    List DataProduct → List DataProduct
  | [] => []
  | x :: xs => if p x then a :: xs else x :: replaceFirst p a xs

/-- The uniqueness pre-check of `update_data_product` (lines 67–71): it runs
only when the request's `schema_name` attribute is non-null
(`updates.schema_name is not None`) and differs from the stored value, and
trips only when the new name resolves to an existing record. -/
def dupCheck (s : DBState) (u : DataProductUpdate) (r : DataProduct) :
    Option SvcError :=
  match u.schema_name with
  | some (some v) =>
    if some v ≠ r.schema_name then
      match get_data_product_by_schema_name s v with
      | some _ => some (.alreadyExists v)
      | none => none
    else none
  | _ => none

/-- `update_data_product`: `None` or unknown id yields "not found" (`.ok`
with no record, never an error); a supplied non-null `schema_name` different
from the current one is pre-checked for uniqueness; then only the supplied
fields are merged onto the stored row, `updated_at` is stamped, and the
commit either raises `IntegrityError` (violated `schema_name` constraints,
nothing persisted) or persists the updated row. -/
def update_data_product (s : DBState) (i : Option Nat) (u : DataProductUpdate) :
    Except SvcError (DBState × Option DataProduct) :=
  match i with
  | none => .ok (s, none)
  | some n =>
    match s.rows.find? (fun r => r.id == some n) with
    | none => .ok (s, none)
    | some r =>
      match dupCheck s u r with
      | some e => .error e
      | none =>
        let r' := { applyUpdates u r with updated_at := s.clock }
        if updateViolation s.rows r r' then .error .integrityError
        else
          let s' : DBState :=
            { rows := replaceFirst (fun x => x.id == some n) r' s.rows
              nextId := s.nextId
              clock := s.clock + 1 }
          .ok (s', some r')

/-- `delete_data_product`: `None` or unknown id yields `false`; otherwise the
row found by primary key is removed and the call yields `true`. -/
def delete_data_product (s : DBState) (i : Option Nat) : DBState × Bool :=
  match i with
  | none => (s, false)
  | some n =>
    match s.rows.find? (fun r => r.id == some n) with
    | none => (s, false)
    | some _ => ({ s with rows := s.rows.eraseP (fun r => r.id == some n) }, true)

/-- `get_data_products_count`: total number of rows. -/
def get_data_products_count (s : DBState) : Nat :=
  s.rows.length

/-- Lower-case the characters of a string (model of `LOWER`/`str.lower`). -/
def lowerData (s : String) : List Char :=
  s.data.map Char.toLower

/-- Boolean list-prefix test. -/
def isPrefixB : List Char → List Char → Bool
  | [], _ => true
  | _ :: _, [] => false
  | a :: as, b :: bs => a == b && isPrefixB as bs

/-- Boolean contiguous-sublist (substring) test. -/
def isSubstrB (t : List Char) : List Char → Bool
  | [] => isPrefixB t []
  | c :: cs => isPrefixB t (c :: cs) || isSubstrB t cs

/-- Case-insensitive substring match of a search term against a row's
`schema_name`; a row whose `schema_name` is null matches nothing. -/
def matchesTerm (term : String) (r : DataProduct) : Bool :=
  match r.schema_name with
  | some n => isSubstrB (lowerData term) (lowerData n)
  | none => false

/-- Modelled from the spec: `search_data_products_by_schema_name` is absent
from the repository sources — only the tests in
`tests/test_search_functionality.py` refer to it.  Per the spec it performs a
case-insensitive substring match
against `schema_name`; an empty or whitespace-only term matches every record
(equivalent to `list_all`); results are ordered by `creation_date` descending,
the same ordering rule as `list_all`. -/
def search_data_products_by_schema_name (s : DBState) (term : String) :
    List DataProduct :=
  if term.data.all Char.isWhitespace then get_all_data_products s
  else (s.rows.filter (matchesTerm term)).mergeSort byDateDesc

/-- A service call as seen by the store: the three mutating operations. -/
inductive Op where
  | create : DataProductCreate → Op
  | updateOp : Option Nat → DataProductUpdate → Op
  | deleteOp : Option Nat → Op
deriving Repr

/-- State transition of one call: a call that raises leaves the store
untouched (the session never committed). -/
def runOp (s : DBState) : Op → DBState
  | .create d =>
    match create_data_product s d with
    | .ok (s', _) => s'
    | .error _ => s
  | .updateOp i u =>
    match update_data_product s i u with
    | .ok (s', _) => s'
    | .error _ => s
  | .deleteOp i => (delete_data_product s i).1

/-- The states reachable from the empty store by a sequence of
create/update/delete calls. -/
def reachable (s : DBState) : Prop :=
  ∃ ops : List Op, s = ops.foldl runOp initState

/-- Basic well-formedness of a store state: every row has a primary key
below the autoincrement counter, primary keys are pairwise distinct, and
every timestamp predates the clock. -/
def WF (s : DBState) : Prop :=
  (∀ r ∈ s.rows,
    r.id.getD s.nextId < s.nextId ∧
    r.created_at < s.clock ∧ r.updated_at < s.clock) ∧
  s.rows.Pairwise (fun a b => a.id ≠ b.id)

instance (s : DBState) : Decidable (WF s) := by
  unfold WF
  infer_instance

/-! ### Ordering lemmas -/

lemma dateGe_total (a b : Option Nat) : dateGe a b || dateGe b a := by
  cases a <;> cases b <;> simp [dateGe] <;> omega

lemma dateGe_trans (a b c : Option Nat) (h1 : dateGe a b = true)
    (h2 : dateGe b c = true) : dateGe a c = true := by
  cases a <;> cases b <;> cases c <;> simp_all [dateGe] <;> omega

lemma byDateDesc_total (a b : DataProduct) : byDateDesc a b || byDateDesc b a :=
  dateGe_total _ _

lemma byDateDesc_trans (a b c : DataProduct) (h1 : byDateDesc a b = true)
    (h2 : byDateDesc b c = true) : byDateDesc a c = true :=
  dateGe_trans _ _ _ h1 h2

/-- The per-pair strict-descending property claimed for the result order:
whenever two result rows carry distinct concrete creation dates, the earlier
row's date is the larger one. -/
def StrictDescAt (a b : DataProduct) : Prop :=
  ∀ x y, a.creation_date = some x → b.creation_date = some y → x ≠ y → y < x

lemma byDateDesc_strictDescAt {a b : DataProduct} (h : byDateDesc a b = true) :
    StrictDescAt a b := by
  intro x y hx hy hne
  rw [byDateDesc, hx, hy] at h
  simp [dateGe] at h
  omega

lemma mergeSort_byDateDesc_sorted (l : List DataProduct) :
    (l.mergeSort byDateDesc).Pairwise StrictDescAt := by
  have h := List.sorted_mergeSort byDateDesc_trans
    (fun a b : DataProduct => byDateDesc_total a b) l
  exact h.imp byDateDesc_strictDescAt

/-! ### Substring lemmas -/

lemma isPrefixB_iff (t l : List Char) : isPrefixB t l = true ↔ t <+: l := by
  induction t generalizing l with
  | nil => simp [isPrefixB]
  | cons a as ih =>
    cases l with
    | nil => simp [isPrefixB]
    | cons b bs =>
      rw [isPrefixB, Bool.and_eq_true, beq_iff_eq, ih, List.cons_prefix_cons]

lemma isSubstrB_iff (t l : List Char) : isSubstrB t l = true ↔ t <:+: l := by
  induction l with
  | nil =>
    simp [isSubstrB, isPrefixB_iff]
  | cons c cs ih =>
    rw [isSubstrB, Bool.or_eq_true, ih, isPrefixB_iff]
    constructor
    · rintro (h | h)
      · exact h.isInfix
      · exact List.infix_cons h
    · intro h
      rcases h with ⟨s₁, s₂, hs⟩
      cases s₁ with
      | nil => exact Or.inl ⟨s₂, by simpa using hs⟩
      | cons d ds =>
        right
        refine ⟨ds, s₂, ?_⟩
        have : d :: (ds ++ t ++ s₂) = c :: cs := by
          simpa [List.append_assoc] using hs
        exact (List.cons.injEq _ _ _ _ ▸ this).2

lemma lowerData_eq_nil {x : String} : lowerData x = [] ↔ x = "" := by
  constructor
  · intro h
    rw [lowerData, List.map_eq_nil_iff] at h
    apply String.ext
    simpa using h
  · rintro rfl
    rfl

/-! ### C8: `get_all` ordering -/

/-- C8: `get_all` (`list_all`) returns every stored row, in an order that is
descending by `creation_date` — strictly descending wherever two rows carry
distinct creation dates, most recent first — and an empty store yields an
empty sequence. -/
theorem get_all_returns_all_sorted (s : DBState) :
    (get_all_data_products s).Perm s.rows ∧
    (get_all_data_products s).Pairwise StrictDescAt ∧
    (s.rows = [] → get_all_data_products s = []) := by
  refine ⟨List.mergeSort_perm s.rows byDateDesc, mergeSort_byDateDesc_sorted s.rows, ?_⟩
  intro h
  rw [get_all_data_products, h, List.mergeSort_nil]

/-- Concrete instantiation of `get_all_returns_all_sorted`. -/
theorem get_all_returns_all_sorted_witness :
    get_all_data_products initState = [] :=
  (get_all_returns_all_sorted initState).2.2 rfl

/-! ### C1: search semantics -/

/-- C1: for every search term, `search_by_schema_name` performs a
case-insensitive substring match against `schema_name` (the match predicate
depends only on the lower-cased term and holds exactly when the lower-cased
term is a contiguous substring of the lower-cased name); an empty or
whitespace-only term returns the same result as `list_all`; otherwise the
result is exactly the matching records; results are ordered by
`creation_date` descending; and a term matching no record yields an empty
sequence, not an error. -/
theorem search_by_schema_name_spec (s : DBState) (term : String) :
    (term.data.all Char.isWhitespace = true →
      search_data_products_by_schema_name s term = get_all_data_products s) ∧
    (term.data.all Char.isWhitespace = false →
      (search_data_products_by_schema_name s term).Perm
        (s.rows.filter (matchesTerm term))) ∧
    (∀ r, matchesTerm term r = true ↔
      ∃ n, r.schema_name = some n ∧ lowerData term <:+: lowerData n) ∧
    (∀ term' : String, lowerData term' = lowerData term →
      ∀ r, matchesTerm term' r = matchesTerm term r) ∧
    (search_data_products_by_schema_name s term).Pairwise StrictDescAt ∧
    (term.data.all Char.isWhitespace = false →
      (∀ r ∈ s.rows, matchesTerm term r = false) →
      search_data_products_by_schema_name s term = []) := by
  refine ⟨?_, ?_, ?_, ?_, ?_, ?_⟩
  · intro h
    rw [search_data_products_by_schema_name, if_pos h]
  · intro h
    rw [search_data_products_by_schema_name, if_neg (by simp [h])]
    exact List.mergeSort_perm _ _
  · intro r
    cases hn : r.schema_name with
    | none => simp [matchesTerm, hn]
    | some n => simp [matchesTerm, hn, isSubstrB_iff]
  · intro term' hterm r
    cases hn : r.schema_name with
    | none => simp [matchesTerm, hn]
    | some n => simp [matchesTerm, hn, hterm]
  · rw [search_data_products_by_schema_name]
    split
    · exact mergeSort_byDateDesc_sorted _
    · exact mergeSort_byDateDesc_sorted _
  · intro h hnone
    rw [search_data_products_by_schema_name, if_neg (by simp [h]),
      List.filter_eq_nil_iff.mpr (by simpa using hnone), List.mergeSort_nil]

/-- Concrete instantiation of `search_by_schema_name_spec`: a whitespace-only
term is `list_all`, and a non-matching term on a populated store yields `[]`. -/
theorem search_by_schema_name_spec_witness :
    search_data_products_by_schema_name initState "  " =
      get_all_data_products initState ∧
    search_data_products_by_schema_name
      { rows := [{ id := some 1, schema_name := some "sales_data",
                   description := none, owner := some "alice",
                   creation_date := some 5, created_at := 5, updated_at := 5 }],
        nextId := 2, clock := 6 } "marketing" = [] :=
  ⟨(search_by_schema_name_spec initState "  ").1 (by decide),
   (search_by_schema_name_spec _ "marketing").2.2.2.2.2 (by decide) (by decide)⟩

/-! ### C2: create then lookup -/

/-- C2: for every creation request accepted by `create` (on a well-formed
store), looking up the returned id yields a record equal to the request in
every caller-supplied field (`schema_name`, `description`, `owner`, and
`creation_date` when supplied), with `id`, `created_at`, `updated_at`
populated, `created_at = updated_at` at creation time, and `creation_date`
defaulted to the current time (the clock at the moment of the call) when the
request omits it. -/
theorem create_then_lookup (s : DBState) (d : DataProductCreate) (s' : DBState)
    (row : DataProduct) (hwf : WF s)
    (h : create_data_product s d = .ok (s', row)) :
    get_data_product_by_id s' row.id = some row ∧
    row.schema_name = some d.schema_name ∧
    row.description = d.description ∧
    row.owner = some d.owner ∧
    (∀ t, d.creation_date = some t → row.creation_date = some t) ∧
    (d.creation_date = none → row.creation_date = some s.clock) ∧
    row.id = some s.nextId ∧
    row.created_at = row.updated_at := by
  rw [create_data_product] at h
  cases hg : get_data_product_by_schema_name s d.schema_name with
  | some e => rw [hg] at h; exact absurd h (by simp)
  | none =>
    simp only [hg] at h
    by_cases hv : insertViolation s.rows
        { id := some s.nextId
          schema_name := some d.schema_name
          description := d.description
          owner := some d.owner
          creation_date := some (d.creation_date.getD s.clock)
          created_at := s.clock
          updated_at := s.clock } = true
    · rw [if_pos hv] at h
      exact absurd h (by simp)
    · rw [if_neg hv] at h
      simp only [Except.ok.injEq, Prod.mk.injEq] at h
      obtain ⟨hs', hrow⟩ := h
      subst hs' hrow
      have hnone : s.rows.find? (fun r => r.id == some s.nextId) = none := by
        refine List.find?_eq_none.mpr (fun x hx => ?_)
        have hb := (hwf.1 x hx).1
        simp only [beq_iff_eq]
        intro heq
        rw [heq] at hb
        simp at hb
      refine ⟨?_, rfl, rfl, rfl, ?_, ?_, rfl, rfl⟩
      · simp only [get_data_product_by_id, List.find?_append, hnone, Option.none_or]
        simp
      · intro t ht
        simp [ht]
      · intro ht
        simp [ht]

/-- Concrete instantiation of `create_then_lookup` on the empty store. -/
theorem create_then_lookup_witness :
    get_data_product_by_id
      { rows := [{ id := some 1, schema_name := some "sales_analytics",
                   description := some "Sales data", owner := some "john",
                   creation_date := some 0, created_at := 0, updated_at := 0 }],
        nextId := 2, clock := 1 } (some 1) =
      some { id := some 1, schema_name := some "sales_analytics",
             description := some "Sales data", owner := some "john",
             creation_date := some 0, created_at := 0, updated_at := 0 } :=
  (create_then_lookup initState
    { schema_name := "sales_analytics", description := some "Sales data",
      owner := "john", creation_date := none }
    { rows := [{ id := some 1, schema_name := some "sales_analytics",
                 description := some "Sales data", owner := some "john",
                 creation_date := some 0, created_at := 0, updated_at := 0 }],
      nextId := 2, clock := 1 }
    { id := some 1, schema_name := some "sales_analytics",
      description := some "Sales data", owner := some "john",
      creation_date := some 0, created_at := 0, updated_at := 0 }
    (by decide) (by rfl)).1

/-! ### replaceFirst / applyUpdates lemmas -/

lemma mem_replaceFirst {p : DataProduct → Bool} {a x : DataProduct}
    {l : List DataProduct} (h : x ∈ replaceFirst p a l) :
    (x = a ∧ ∃ y ∈ l, p y = true) ∨ x ∈ l := by
  induction l with
  | nil => simp [replaceFirst] at h
  | cons b bs ih =>
    rw [replaceFirst] at h
    by_cases hb : p b = true
    · rw [if_pos hb] at h
      rcases List.mem_cons.mp h with h | h
      · exact Or.inl ⟨h, b, List.mem_cons_self b bs, hb⟩
      · exact Or.inr (List.mem_cons_of_mem _ h)
    · rw [if_neg hb] at h
      rcases List.mem_cons.mp h with h | h
      · exact Or.inr (h ▸ List.mem_cons_self b bs)
      · rcases ih h with ⟨ha, y, hy, hpy⟩ | h
        · exact Or.inl ⟨ha, y, List.mem_cons_of_mem _ hy, hpy⟩
        · exact Or.inr (List.mem_cons_of_mem _ h)

lemma find?_replaceFirst {p : DataProduct → Bool} {a x : DataProduct}
    {l : List DataProduct} (hl : l.find? p = some x) (ha : p a = true) :
    (replaceFirst p a l).find? p = some a := by
  induction l with
  | nil => simp at hl
  | cons b bs ih =>
    rw [replaceFirst]
    by_cases hb : p b = true
    · rw [if_pos hb, List.find?_cons, ha]
    · have hpb : p b = false := by simpa using hb
      rw [if_neg hb, List.find?_cons, hpb]
      rw [List.find?_cons, hpb] at hl
      exact ih hl

lemma applyUpdates_spec (u : DataProductUpdate) (r : DataProduct) :
    (applyUpdates u r).id = r.id ∧
    (applyUpdates u r).created_at = r.created_at ∧
    (applyUpdates u r).schema_name = u.schema_name.getD r.schema_name ∧
    (applyUpdates u r).description = u.description.getD r.description ∧
    (applyUpdates u r).owner = u.owner.getD r.owner ∧
    (applyUpdates u r).creation_date = u.creation_date.getD r.creation_date ∧
    (applyUpdates u r).updated_at = r.updated_at := by
  rcases u with ⟨us, ud, uo, uc⟩
  cases us <;> cases ud <;> cases uo <;> cases uc <;>
    exact ⟨rfl, rfl, rfl, rfl, rfl, rfl, rfl⟩

/-! ### C4: update frame conditions -/

/-- C4: a successful partial update changes only the fields supplied (set) in
the request; every unsupplied field retains its prior value; `created_at` and
`id` are unchanged; and `updated_at` is strictly greater after the update
than before (the freshness hypothesis `r.updated_at < s.clock` holds in every
reachable state, see `reachable_WF`).  The updated record is what the store
then holds at that id. -/
theorem update_changes_only_supplied (s : DBState) (n : Nat) (r : DataProduct)
    (u : DataProductUpdate) (s' : DBState) (r' : DataProduct)
    (hr : get_data_product_by_id s (some n) = some r)
    (hfresh : r.updated_at < s.clock)
    (h : update_data_product s (some n) u = .ok (s', some r')) :
    r'.id = r.id ∧
    r'.created_at = r.created_at ∧
    (u.schema_name = none → r'.schema_name = r.schema_name) ∧
    (u.description = none → r'.description = r.description) ∧
    (u.owner = none → r'.owner = r.owner) ∧
    (u.creation_date = none → r'.creation_date = r.creation_date) ∧
    (∀ v, u.schema_name = some v → r'.schema_name = v) ∧
    (∀ v, u.description = some v → r'.description = v) ∧
    (∀ v, u.owner = some v → r'.owner = v) ∧
    (∀ v, u.creation_date = some v → r'.creation_date = v) ∧
    r.updated_at < r'.updated_at ∧
    get_data_product_by_id s' (some n) = some r' := by
  have hfind : s.rows.find? (fun x => x.id == some n) = some r := hr
  rw [update_data_product] at h
  simp only [hfind] at h
  cases hdup : dupCheck s u r with
  | some e => rw [hdup] at h; exact absurd h (by simp)
  | none =>
    rw [hdup] at h
    by_cases hviol : updateViolation s.rows r
        { applyUpdates u r with updated_at := s.clock } = true
    · rw [if_pos hviol] at h
      exact absurd h (by simp)
    · rw [if_neg hviol] at h
      simp only [Except.ok.injEq, Prod.mk.injEq, Option.some.injEq] at h
      obtain ⟨hs', hr'⟩ := h
      subst hs' hr'
      obtain ⟨hid, hca, hsn, hde, how, hcd, _⟩ := applyUpdates_spec u r
      refine ⟨hid, hca, ?_, ?_, ?_, ?_, ?_, ?_, ?_, ?_, hfresh, ?_⟩
      · intro hu; simpa [hu] using hsn
      · intro hu; simpa [hu] using hde
      · intro hu; simpa [hu] using how
      · intro hu; simpa [hu] using hcd
      · intro v hu; simpa [hu] using hsn
      · intro v hu; simpa [hu] using hde
      · intro v hu; simpa [hu] using how
      · intro v hu; simpa [hu] using hcd
      · have hpr : (r.id == some n) = true := by
          simpa using List.find?_some (p := fun x : DataProduct => x.id == some n) hfind
        have hpr' : (fun x : DataProduct => x.id == some n)
            { applyUpdates u r with updated_at := s.clock } = true := by
          simpa [hid] using hpr
        exact find?_replaceFirst hfind hpr'

/-- Concrete instantiation of `update_changes_only_supplied`: update only the
description; `schema_name` and `owner` are retained, `updated_at` increases. -/
theorem update_changes_only_supplied_witness :
    ({ id := some 1, schema_name := some "a", description := some "new",
       owner := some "o", creation_date := some 0, created_at := 0,
       updated_at := 1 } : DataProduct).schema_name = some "a" ∧
    (0 : Nat) < 1 :=
  ⟨(update_changes_only_supplied
      { rows := [{ id := some 1, schema_name := some "a",
                   description := some "d", owner := some "o",
                   creation_date := some 0, created_at := 0, updated_at := 0 }],
        nextId := 2, clock := 1 } 1
      { id := some 1, schema_name := some "a", description := some "d",
        owner := some "o", creation_date := some 0, created_at := 0,
        updated_at := 0 }
      { schema_name := none, description := some (some "new"), owner := none,
        creation_date := none }
      { rows := [{ id := some 1, schema_name := some "a",
                   description := some "new", owner := some "o",
                   creation_date := some 0, created_at := 0, updated_at := 1 }],
        nextId := 2, clock := 2 }
      { id := some 1, schema_name := some "a", description := some "new",
        owner := some "o", creation_date := some 0, created_at := 0,
        updated_at := 1 }
      (by rfl) (by decide) (by rfl)).2.2.1 rfl,
   (update_changes_only_supplied
      { rows := [{ id := some 1, schema_name := some "a",
                   description := some "d", owner := some "o",
                   creation_date := some 0, created_at := 0, updated_at := 0 }],
        nextId := 2, clock := 1 } 1
      { id := some 1, schema_name := some "a", description := some "d",
        owner := some "o", creation_date := some 0, created_at := 0,
        updated_at := 0 }
      { schema_name := none, description := some (some "new"), owner := none,
        creation_date := none }
      { rows := [{ id := some 1, schema_name := some "a",
                   description := some "new", owner := some "o",
                   creation_date := some 0, created_at := 0, updated_at := 1 }],
        nextId := 2, clock := 2 }
      { id := some 1, schema_name := some "a", description := some "new",
        owner := some "o", creation_date := some 0, created_at := 0,
        updated_at := 1 }
      (by rfl) (by decide) (by rfl)).2.2.2.2.2.2.2.2.2.2.1⟩

/-! ### C5: rename rules and not-found updates -/

/-- C6: creating a record whose `schema_name` already resolves to a stored
record fails with the distinguishable "already exists" condition (not a
generic error) and leaves the store unchanged, while creating two records
whose schema names differ only in letter case both succeed — uniqueness is
case-sensitive. -/
theorem create_duplicate_rules (s : DBState) (d1 d2 : DataProductCreate) :
    (∀ e, get_data_product_by_schema_name s d1.schema_name = some e →
      create_data_product s d1 = .error (.alreadyExists d1.schema_name) ∧
      runOp s (.create d1) = s) ∧
    (lowerData d1.schema_name = lowerData d2.schema_name →
      d1.schema_name ≠ d2.schema_name →
      get_data_product_by_schema_name s d1.schema_name = none →
      get_data_product_by_schema_name s d2.schema_name = none →
      (create_data_product s d1).isOk = true ∧
      ∀ s1 r1, create_data_product s d1 = .ok (s1, r1) →
        (create_data_product s1 d2).isOk = true) := by
  constructor
  · intro e hget
    have herr : create_data_product s d1 = .error (.alreadyExists d1.schema_name) := by
      rw [create_data_product]
      simp only [hget]
    refine ⟨herr, ?_⟩
    rw [runOp]
    simp only [herr]
  · intro hlow hne hget1 hget2
    have h1ne : d1.schema_name ≠ "" := by
      intro h1
      have hd2 : d2.schema_name = "" := by
        apply lowerData_eq_nil.mp
        rw [← hlow, h1]
        rfl
      exact hne (h1.trans hd2.symm)
    have h2ne : d2.schema_name ≠ "" := by
      intro h2
      have hd1 : d1.schema_name = "" := by
        apply lowerData_eq_nil.mp
        rw [hlow, h2]
        rfl
      exact hne (hd1.trans h2.symm)
    have hfind1 : s.rows.find?
        (fun x => x.schema_name == some d1.schema_name) = none := by
      have h := hget1
      rw [get_data_product_by_schema_name, if_neg h1ne] at h
      exact h
    have hfind2 : s.rows.find?
        (fun x => x.schema_name == some d2.schema_name) = none := by
      have h := hget2
      rw [get_data_product_by_schema_name, if_neg h2ne] at h
      exact h
    have hins1 : s.rows.any
        (fun x => x.schema_name == some d1.schema_name) = false :=
      List.any_eq_false.mpr (List.find?_eq_none.mp hfind1)
    have hok : create_data_product s d1 =
        .ok ({ rows := s.rows ++
                 [{ id := some s.nextId
                    schema_name := some d1.schema_name
                    description := d1.description
                    owner := some d1.owner
                    creation_date := some (d1.creation_date.getD s.clock)
                    created_at := s.clock
                    updated_at := s.clock }]
               nextId := s.nextId + 1
               clock := s.clock + 1 },
             { id := some s.nextId
               schema_name := some d1.schema_name
               description := d1.description
               owner := some d1.owner
               creation_date := some (d1.creation_date.getD s.clock)
               created_at := s.clock
               updated_at := s.clock }) := by
      rw [create_data_product]
      simp only [hget1]
      rw [if_neg (by simp [insertViolation, hins1])]
    refine ⟨by rw [hok]; rfl, ?_⟩
    intro s1 r1 h1
    rw [hok] at h1
    simp only [Except.ok.injEq, Prod.mk.injEq] at h1
    obtain ⟨hs1, _⟩ := h1
    subst hs1
    have hget2' : get_data_product_by_schema_name
        { rows := s.rows ++
            [{ id := some s.nextId
               schema_name := some d1.schema_name
               description := d1.description
               owner := some d1.owner
               creation_date := some (d1.creation_date.getD s.clock)
               created_at := s.clock
               updated_at := s.clock }]
          nextId := s.nextId + 1
          clock := s.clock + 1 } d2.schema_name = none := by
      rw [get_data_product_by_schema_name, if_neg h2ne]
      rw [List.find?_append, hfind2]
      simp [hne]
    have hins2 : (s.rows ++
        [({ id := some s.nextId
            schema_name := some d1.schema_name
            description := d1.description
            owner := some d1.owner
            creation_date := some (d1.creation_date.getD s.clock)
            created_at := s.clock
            updated_at := s.clock } : DataProduct)]).any
        (fun x => x.schema_name == some d2.schema_name) = false := by
      rw [List.any_append,
        List.any_eq_false.mpr (List.find?_eq_none.mp hfind2)]
      simp [hne]
    rw [create_data_product]
    simp only [hget2']
    rw [if_neg (by simp [insertViolation, hins2])]
    rfl

/-- Concrete instantiation of `create_duplicate_rules`: re-creating
`duplicate_schema` fails with the "already exists" condition, and
`sales_analytics` then `SALES_ANALYTICS` both succeed. -/
theorem create_duplicate_rules_witness :
    (create_data_product
      { rows := [{ id := some 1, schema_name := some "duplicate_schema",
                   description := none, owner := some "o",
                   creation_date := some 0, created_at := 0, updated_at := 0 }],
        nextId := 2, clock := 1 }
      { schema_name := "duplicate_schema", description := none,
        owner := "another", creation_date := none } =
      .error (.alreadyExists "duplicate_schema")) ∧
    (create_data_product initState
      { schema_name := "sales_analytics", description := none,
        owner := "a", creation_date := none }).isOk = true ∧
    (∀ s1 r1, create_data_product initState
      { schema_name := "sales_analytics", description := none,
        owner := "a", creation_date := none } = .ok (s1, r1) →
      (create_data_product s1
        { schema_name := "SALES_ANALYTICS", description := none,
          owner := "b", creation_date := none }).isOk = true) := by
  refine ⟨?_, ?_, ?_⟩
  · exact ((create_duplicate_rules _
      { schema_name := "duplicate_schema", description := none,
        owner := "another", creation_date := none }
      { schema_name := "x", description := none, owner := "x",
        creation_date := none }).1
      { id := some 1, schema_name := some "duplicate_schema",
        description := none, owner := some "o", creation_date := some 0,
        created_at := 0, updated_at := 0 } (by rfl)).1
  · exact ((create_duplicate_rules initState
      { schema_name := "sales_analytics", description := none, owner := "a",
        creation_date := none }
      { schema_name := "SALES_ANALYTICS", description := none, owner := "b",
        creation_date := none }).2 (by decide) (by decide) (by rfl) (by rfl)).1
  · exact ((create_duplicate_rules initState
      { schema_name := "sales_analytics", description := none, owner := "a",
        creation_date := none }
      { schema_name := "SALES_ANALYTICS", description := none, owner := "b",
        creation_date := none }).2 (by decide) (by decide) (by rfl) (by rfl)).2

/-! ### C7: delete semantics -/

lemma find?_eraseP_none {p : DataProduct → Bool} {l : List DataProduct}
    (hp : l.Pairwise (fun a b => ¬(p a = true ∧ p b = true))) :
    (l.eraseP p).find? p = none := by
  induction l with
  | nil => rfl
  | cons x xs ih =>
    rcases List.pairwise_cons.mp hp with ⟨hx, hxs⟩
    by_cases hpx : p x = true
    · rw [List.eraseP_cons, hpx]
      simp only [cond_true]
      exact List.find?_eq_none.mpr (fun y hy hpy => hx y hy ⟨hpx, hpy⟩)
    · have hpx' : p x = false := by simpa using hpx
      rw [List.eraseP_cons, hpx']
      simp only [cond_false]
      rw [List.find?_cons, hpx']
      exact ih hxs

/-- C7: on a well-formed store, `delete(id)` yields `true` exactly when a
record with that id existed — and then a subsequent lookup of that id yields
absent — while deleting a null or nonexistent id yields `false` (and never an
error: `delete` is a total function into `state × bool`). -/
theorem delete_iff_existed (s : DBState) (hwf : WF s) :
    delete_data_product s none = (s, false) ∧
    (∀ n, get_data_product_by_id s (some n) = none →
      delete_data_product s (some n) = (s, false)) ∧
    (∀ n r, get_data_product_by_id s (some n) = some r →
      (delete_data_product s (some n)).2 = true ∧
      get_data_product_by_id (delete_data_product s (some n)).1 (some n) = none) := by
  refine ⟨rfl, ?_, ?_⟩
  · intro n hr
    have hfind : s.rows.find? (fun x => x.id == some n) = none := hr
    rw [delete_data_product]
    simp only [hfind]
  · intro n r hr
    have hfind : s.rows.find? (fun x => x.id == some n) = some r := hr
    constructor
    · rw [delete_data_product]
      simp only [hfind]
    · rw [delete_data_product]
      simp only [hfind]
      show (s.rows.eraseP (fun x => x.id == some n)).find?
        (fun x => x.id == some n) = none
      refine find?_eraseP_none (hwf.2.imp ?_)
      intro a b hab ⟨ha, hb⟩
      exact hab (by rw [beq_iff_eq.mp ha, beq_iff_eq.mp hb])

/-- Concrete instantiation of `delete_iff_existed`: deleting the stored id 1
returns true and the id then resolves to absent; null and unknown ids return
false. -/
theorem delete_iff_existed_witness :
    delete_data_product
      { rows := [{ id := some 1, schema_name := some "to_be_deleted",
                   description := none, owner := some "o",
                   creation_date := some 0, created_at := 0, updated_at := 0 }],
        nextId := 2, clock := 1 } none =
      ({ rows := [{ id := some 1, schema_name := some "to_be_deleted",
                    description := none, owner := some "o",
                    creation_date := some 0, created_at := 0, updated_at := 0 }],
         nextId := 2, clock := 1 }, false) ∧
    delete_data_product
      { rows := [{ id := some 1, schema_name := some "to_be_deleted",
                   description := none, owner := some "o",
                   creation_date := some 0, created_at := 0, updated_at := 0 }],
        nextId := 2, clock := 1 } (some 999) =
      ({ rows := [{ id := some 1, schema_name := some "to_be_deleted",
                    description := none, owner := some "o",
                    creation_date := some 0, created_at := 0, updated_at := 0 }],
         nextId := 2, clock := 1 }, false) ∧
    (delete_data_product
      { rows := [{ id := some 1, schema_name := some "to_be_deleted",
                   description := none, owner := some "o",
                   creation_date := some 0, created_at := 0, updated_at := 0 }],
        nextId := 2, clock := 1 } (some 1)).2 = true ∧
    get_data_product_by_id
      (delete_data_product
        { rows := [{ id := some 1, schema_name := some "to_be_deleted",
                     description := none, owner := some "o",
                     creation_date := some 0, created_at := 0, updated_at := 0 }],
          nextId := 2, clock := 1 } (some 1)).1 (some 1) = none := by
  refine ⟨(delete_iff_existed _ (by decide)).1,
    (delete_iff_existed _ (by decide)).2.1 999 (by rfl),
    ((delete_iff_existed _ (by decide)).2.2 1
      { id := some 1, schema_name := some "to_be_deleted", description := none,
        owner := some "o", creation_date := some 0, created_at := 0,
        updated_at := 0 } (by rfl)).1,
    ((delete_iff_existed _ (by decide)).2.2 1
      { id := some 1, schema_name := some "to_be_deleted", description := none,
        owner := some "o", creation_date := some 0, created_at := 0,
        updated_at := 0 } (by rfl)).2⟩

/-! ### C9: explicitly-null schema_name in an update -/

/-- Counterexample to C9 as stated: on a store holding one record, an update
whose `schema_name` is explicitly null does skip the uniqueness pre-check and
does carry the null into the merge, but the commit violates the NOT NULL
constraint on `schema_name` (`models.py` line 12): the call raises the
integrity error and the store is unchanged — the null value is never applied
to the stored record. -/
theorem update_explicit_null_schema_name_cex :
    update_data_product
      { rows := [{ id := some 1, schema_name := some "some_schema",
                   description := none, owner := some "o",
                   creation_date := some 0, created_at := 0, updated_at := 0 }],
        nextId := 2, clock := 1 } (some 1)
      { schema_name := some none, description := none, owner := none,
        creation_date := none } = .error .integrityError ∧
    runOp
      { rows := [{ id := some 1, schema_name := some "some_schema",
                   description := none, owner := some "o",
                   creation_date := some 0, created_at := 0, updated_at := 0 }],
        nextId := 2, clock := 1 }
      (.updateOp (some 1)
        { schema_name := some none, description := none, owner := none,
          creation_date := none }) =
      { rows := [{ id := some 1, schema_name := some "some_schema",
                   description := none, owner := some "o",
                   creation_date := some 0, created_at := 0, updated_at := 0 }],
        nextId := 2, clock := 1 } :=
  ⟨rfl, rfl⟩

/-- C9 (amended): for every stored record, an update whose `schema_name`
field is explicitly set to null skips the uniqueness pre-check (which only
runs when the supplied `schema_name` is non-null) yet still includes the
field in the merge, writing null into the merged tuple's `schema_name`; the
commit is then rejected by the storage engine's NOT NULL constraint on
`schema_name`, so the call raises the integrity error and the store is
unchanged — the null is never persisted. -/
theorem update_explicit_null_schema_name (s : DBState) (n : Nat)
    (r : DataProduct) (u : DataProductUpdate)
    (hr : get_data_product_by_id s (some n) = some r)
    (hu : u.schema_name = some none) :
    dupCheck s u r = none ∧
    (applyUpdates u r).schema_name = none ∧
    update_data_product s (some n) u = .error .integrityError ∧
    runOp s (.updateOp (some n) u) = s := by
  have hfind : s.rows.find? (fun x => x.id == some n) = some r := hr
  have hdup : dupCheck s u r = none := by
    rw [dupCheck, hu]
  have hsn0 : (applyUpdates u r).schema_name = none := by
    rw [(applyUpdates_spec u r).2.2.1, hu]
    rfl
  have hviol : updateViolation s.rows r
      { applyUpdates u r with updated_at := s.clock } = true := by
    simp only [updateViolation, hsn0]
  have hupd : update_data_product s (some n) u = .error .integrityError := by
    rw [update_data_product]
    simp only [hfind, hdup]
    rw [if_pos hviol]
  refine ⟨hdup, hsn0, hupd, ?_⟩
  rw [runOp, hupd]

/-- Concrete instantiation of `update_explicit_null_schema_name`. -/
theorem update_explicit_null_schema_name_witness :
    dupCheck
      { rows := [{ id := some 1, schema_name := some "some_schema",
                   description := none, owner := some "o",
                   creation_date := some 0, created_at := 0, updated_at := 0 }],
        nextId := 2, clock := 1 }
      { schema_name := some none, description := none, owner := none,
        creation_date := none }
      { id := some 1, schema_name := some "some_schema", description := none,
        owner := some "o", creation_date := some 0, created_at := 0,
        updated_at := 0 } = none ∧
    (applyUpdates
      { schema_name := some none, description := none, owner := none,
        creation_date := none }
      { id := some 1, schema_name := some "some_schema", description := none,
        owner := some "o", creation_date := some 0, created_at := 0,
        updated_at := 0 }).schema_name = none ∧
    update_data_product
      { rows := [{ id := some 1, schema_name := some "some_schema",
                   description := none, owner := some "o",
                   creation_date := some 0, created_at := 0, updated_at := 0 }],
        nextId := 2, clock := 1 } (some 1)
      { schema_name := some none, description := none, owner := none,
        creation_date := none } = .error .integrityError ∧
    runOp
      { rows := [{ id := some 1, schema_name := some "some_schema",
                   description := none, owner := some "o",
                   creation_date := some 0, created_at := 0, updated_at := 0 }],
        nextId := 2, clock := 1 }
      (.updateOp (some 1)
        { schema_name := some none, description := none, owner := none,
          creation_date := none }) =
      { rows := [{ id := some 1, schema_name := some "some_schema",
                   description := none, owner := some "o",
                   creation_date := some 0, created_at := 0, updated_at := 0 }],
        nextId := 2, clock := 1 } :=
  update_explicit_null_schema_name _ 1
    { id := some 1, schema_name := some "some_schema", description := none,
      owner := some "o", creation_date := some 0, created_at := 0,
      updated_at := 0 }
    { schema_name := some none, description := none, owner := none,
      creation_date := none } (by rfl) rfl

/-! ### C10: empty schema_name records -/

/-- C10: `create` accepts a creation request whose `schema_name` is the empty
string: the service-level duplicate check passes vacuously because
`get_by_schema_name` returns absent for every empty name, so an empty-name
create is never rejected with the "already exists" condition; when no
empty-named record is already stored (a second one is stopped by the storage
UNIQUE constraint at commit), the record is inserted — and the resulting
stored record can never be retrieved by name, since `get_by_schema_name("")`
returns absent even when a record with an empty `schema_name` exists. -/
theorem create_empty_schema_name (s : DBState) :
    get_data_product_by_schema_name s "" = none ∧
    (∀ d : DataProductCreate, d.schema_name = "" →
      ∀ x, create_data_product s d ≠ .error (.alreadyExists x)) ∧
    (∀ d : DataProductCreate, d.schema_name = "" →
      (∀ r ∈ s.rows, r.schema_name ≠ some "") →
      ∃ s' row, create_data_product s d = .ok (s', row) ∧
        row.schema_name = some "") ∧
    (∀ name r, get_data_product_by_schema_name s name = some r →
      r.schema_name ≠ some "") := by
  refine ⟨rfl, ?_, ?_, ?_⟩
  · intro d hd x hcon
    have hget : get_data_product_by_schema_name s d.schema_name = none := by
      rw [get_data_product_by_schema_name, if_pos hd]
    rw [create_data_product] at hcon
    simp only [hget] at hcon
    split at hcon
    · exact absurd hcon (by simp)
    · exact absurd hcon (by simp)
  · intro d hd hnone
    have hget : get_data_product_by_schema_name s d.schema_name = none := by
      rw [get_data_product_by_schema_name, if_pos hd]
    have hins : s.rows.any
        (fun x => x.schema_name == some d.schema_name) = false := by
      refine List.any_eq_false.mpr (fun x hx => ?_)
      simpa [hd] using hnone x hx
    rw [create_data_product]
    simp only [hget]
    rw [if_neg (by simp [insertViolation, hins])]
    exact ⟨_, _, rfl, by rw [hd]⟩
  · intro name r h
    by_cases hname : name = ""
    · rw [get_data_product_by_schema_name, if_pos hname] at h
      exact absurd h (by simp)
    · rw [get_data_product_by_schema_name, if_neg hname] at h
      have := List.find?_some
        (p := fun x : DataProduct => x.schema_name == some name) h
      have hn : r.schema_name = some name := by simpa using this
      rw [hn]
      simp [hname]

/-- Concrete instantiation of `create_empty_schema_name`: an empty-name
create into the fresh store succeeds with the empty name stored, it is not
findable by name, and even on a store already holding an empty-named record
the duplicate check never signals "already exists". -/
theorem create_empty_schema_name_witness :
    get_data_product_by_schema_name
      { rows := [{ id := some 1, schema_name := some "",
                   description := none, owner := some "o",
                   creation_date := some 0, created_at := 0, updated_at := 0 }],
        nextId := 2, clock := 1 } "" = none ∧
    create_data_product
      { rows := [{ id := some 1, schema_name := some "",
                   description := none, owner := some "o",
                   creation_date := some 0, created_at := 0, updated_at := 0 }],
        nextId := 2, clock := 1 }
      { schema_name := "", description := none, owner := "p",
        creation_date := none } ≠ .error (.alreadyExists "") ∧
    (∃ s' row, create_data_product initState
      { schema_name := "", description := none, owner := "p",
        creation_date := none } = .ok (s', row) ∧
      row.schema_name = some "") :=
  ⟨(create_empty_schema_name _).1,
   (create_empty_schema_name _).2.1
     { schema_name := "", description := none, owner := "p",
       creation_date := none } rfl "",
   (create_empty_schema_name initState).2.2.1
     { schema_name := "", description := none, owner := "p",
       creation_date := none } rfl
     (fun r hr => absurd hr (by simp [initState]))⟩

/-! ### Invariant infrastructure for reachable states -/

lemma countP_replaceFirst_le_succ (q p : DataProduct → Bool) (a : DataProduct)
    (l : List DataProduct) :
    (replaceFirst p a l).countP q ≤ l.countP q + (if q a then 1 else 0) := by
  induction l with
  | nil => simp [replaceFirst]
  | cons x xs ih =>
    rw [replaceFirst]
    by_cases hx : p x = true
    · rw [if_pos hx, List.countP_cons, List.countP_cons]
      omega
    · rw [if_neg hx, List.countP_cons, List.countP_cons]
      omega

lemma countP_replaceFirst_le (q p : DataProduct → Bool) (a : DataProduct)
    (l : List DataProduct)
    (h : ∀ x ∈ l, p x = true → q a = true → q x = true) :
    (replaceFirst p a l).countP q ≤ l.countP q := by
  induction l with
  | nil => simp [replaceFirst]
  | cons x xs ih =>
    rw [replaceFirst]
    by_cases hx : p x = true
    · rw [if_pos hx, List.countP_cons, List.countP_cons]
      have hqa : q a = true → q x = true := h x (List.mem_cons_self x xs) hx
      by_cases hqa' : q a = true
      · rw [if_pos hqa', if_pos (hqa hqa')]
      · rw [if_neg hqa']
        omega
    · rw [if_neg hx, List.countP_cons, List.countP_cons]
      have := ih (fun y hy => h y (List.mem_cons_of_mem _ hy))
      omega

lemma pairwise_replaceFirst {R : DataProduct → DataProduct → Prop}
    {p : DataProduct → Bool} {a : DataProduct} {l : List DataProduct}
    (h : l.Pairwise R)
    (hmatch : ∀ x ∈ l, p x = true →
      ∀ y, (R x y → R a y) ∧ (R y x → R y a)) :
    (replaceFirst p a l).Pairwise R := by
  induction l with
  | nil => exact h
  | cons x xs ih =>
    rcases List.pairwise_cons.mp h with ⟨hx, hxs⟩
    rw [replaceFirst]
    by_cases hpx : p x = true
    · rw [if_pos hpx]
      refine List.pairwise_cons.mpr ⟨?_, hxs⟩
      intro y hy
      exact (hmatch x (List.mem_cons_self x xs) hpx y).1 (hx y hy)
    · rw [if_neg hpx]
      refine List.pairwise_cons.mpr ⟨?_, ?_⟩
      · intro y hy
        rcases mem_replaceFirst hy with ⟨rfl, z, hz, hpz⟩ | hy'
        · exact (hmatch z (List.mem_cons_of_mem _ hz) hpz x).2 (hx z hz)
        · exact hx y hy'
      · exact ih hxs (fun z hz hpz => hmatch z (List.mem_cons_of_mem _ hz) hpz)

lemma eq_of_same_id {l : List DataProduct} {x y : DataProduct} {n : Nat}
    (hp : l.Pairwise (fun a b => a.id ≠ b.id))
    (hx : x ∈ l) (hy : y ∈ l) (hxn : x.id = some n) (hyn : y.id = some n) :
    x = y := by
  by_contra hne
  have hsym : Symmetric (fun a b : DataProduct => a.id ≠ b.id) :=
    fun a b h => (h ∘ Eq.symm)
  exact (hp.forall hsym hx hy hne) (hxn.trans hyn.symm)

lemma idBound {r : DataProduct} {n : Nat} (h : r.id.getD n < n) :
    ∃ i, r.id = some i ∧ i < n := by
  cases hid : r.id with
  | none => rw [hid] at h; simp at h
  | some i => rw [hid] at h; exact ⟨i, rfl, by simpa using h⟩

/-- Table-level uniqueness of schema names: no name is held by more than
one row. -/
def NamesOK (s : DBState) : Prop :=
  ∀ v : String, s.rows.countP (fun r => r.schema_name == some v) ≤ 1

/-- No stored row carries a null `schema_name` (the NOT NULL constraint). -/
def NoNullName (s : DBState) : Prop :=
  ∀ r ∈ s.rows, r.schema_name ≠ none

/-- The preserved invariant of the service: well-formedness, uniqueness of
schema names, and absence of null names. -/
def SvcInv (s : DBState) : Prop := WF s ∧ NamesOK s ∧ NoNullName s

lemma create_ok_eq (s : DBState) (d : DataProductCreate)
    (hget : get_data_product_by_schema_name s d.schema_name = none)
    (hins : s.rows.any (fun x => x.schema_name == some d.schema_name) = false) :
    create_data_product s d = .ok
      ({ rows := s.rows ++
           [{ id := some s.nextId
              schema_name := some d.schema_name
              description := d.description
              owner := some d.owner
              creation_date := some (d.creation_date.getD s.clock)
              created_at := s.clock
              updated_at := s.clock }]
         nextId := s.nextId + 1
         clock := s.clock + 1 },
       { id := some s.nextId
         schema_name := some d.schema_name
         description := d.description
         owner := some d.owner
         creation_date := some (d.creation_date.getD s.clock)
         created_at := s.clock
         updated_at := s.clock }) := by
  rw [create_data_product]
  simp only [hget]
  rw [if_neg (by simp [insertViolation, hins])]

lemma inv_create (s : DBState) (d : DataProductCreate) (h : SvcInv s) :
    SvcInv (runOp s (.create d)) := by
  obtain ⟨⟨hbound, hpair⟩, hnames, hnn⟩ := h
  cases hget : get_data_product_by_schema_name s d.schema_name with
  | some e =>
    have hrun : runOp s (.create d) = s := by
      rw [runOp, create_data_product]
      simp only [hget]
    rw [hrun]
    exact ⟨⟨hbound, hpair⟩, hnames, hnn⟩
  | none =>
    by_cases hins : s.rows.any
        (fun x => x.schema_name == some d.schema_name) = true
    · have hrun : runOp s (.create d) = s := by
        rw [runOp, create_data_product]
        simp only [hget]
        rw [if_pos (by simp [insertViolation, hins])]
      rw [hrun]
      exact ⟨⟨hbound, hpair⟩, hnames, hnn⟩
    · have hins0 : s.rows.any
          (fun x => x.schema_name == some d.schema_name) = false := by
        simpa using hins
      have hrun : runOp s (.create d) =
          { rows := s.rows ++
              [{ id := some s.nextId
                 schema_name := some d.schema_name
                 description := d.description
                 owner := some d.owner
                 creation_date := some (d.creation_date.getD s.clock)
                 created_at := s.clock
                 updated_at := s.clock }]
            nextId := s.nextId + 1
            clock := s.clock + 1 } := by
        rw [runOp, create_ok_eq s d hget hins0]
      rw [hrun]
      dsimp only [SvcInv, WF, NamesOK, NoNullName]
      refine ⟨⟨?_, ?_⟩, ?_, ?_⟩
      · intro r hr
        rcases List.mem_append.mp hr with hr | hr
        · obtain ⟨hb, hc1, hc2⟩ := hbound r hr
          obtain ⟨i, hi, hlt⟩ := idBound hb
          refine ⟨?_, by omega, by omega⟩
          rw [hi]
          simpa using by omega
        · rw [List.mem_singleton] at hr
          subst hr
          exact ⟨by simp, Nat.lt_succ_self _, Nat.lt_succ_self _⟩
      · rw [List.pairwise_append]
        refine ⟨hpair, List.pairwise_singleton _ _, ?_⟩
        intro a ha b hb
        rw [List.mem_singleton] at hb
        subst hb
        obtain ⟨i, hi, hlt⟩ := idBound (hbound a ha).1
        rw [hi]
        simp only [ne_eq, Option.some.injEq]
        omega
      · intro v
        rw [List.countP_append]
        by_cases hdv : d.schema_name = v
        · subst hdv
          have hz : s.rows.countP
              (fun r => r.schema_name == some d.schema_name) = 0 :=
            List.countP_eq_zero.mpr (by simpa using List.any_eq_false.mp hins0)
          rw [hz]
          simp only [Nat.zero_add]
          exact le_trans (List.countP_le_length _) (by simp)
        · have hone : List.countP (fun r : DataProduct => r.schema_name == some v)
              [{ id := some s.nextId
                 schema_name := some d.schema_name
                 description := d.description
                 owner := some d.owner
                 creation_date := some (d.creation_date.getD s.clock)
                 created_at := s.clock
                 updated_at := s.clock }] = 0 := by
            simp [hdv]
          rw [hone]
          simpa using hnames v
      · intro x hx
        rcases List.mem_append.mp hx with hx | hx
        · exact hnn x hx
        · rw [List.mem_singleton] at hx
          subst hx
          simp

lemma update_ok_eq (s : DBState) (n : Nat) (u : DataProductUpdate)
    (r : DataProduct)
    (hfind : s.rows.find? (fun x => x.id == some n) = some r)
    (hdup : dupCheck s u r = none)
    (hviol : updateViolation s.rows r
      { applyUpdates u r with updated_at := s.clock } = false) :
    update_data_product s (some n) u = .ok
      ({ rows := replaceFirst (fun x => x.id == some n)
           { applyUpdates u r with updated_at := s.clock } s.rows
         nextId := s.nextId
         clock := s.clock + 1 },
       some { applyUpdates u r with updated_at := s.clock }) := by
  rw [update_data_product]
  simp only [hfind, hdup]
  rw [if_neg (by simp [hviol])]

lemma inv_update (s : DBState) (i : Option Nat) (u : DataProductUpdate)
    (h : SvcInv s) : SvcInv (runOp s (.updateOp i u)) := by
  obtain ⟨⟨hbound, hpair⟩, hnames, hnn⟩ := h
  cases i with
  | none => exact ⟨⟨hbound, hpair⟩, hnames, hnn⟩
  | some n =>
    cases hfind : s.rows.find? (fun x => x.id == some n) with
    | none =>
      have hrun : runOp s (.updateOp (some n) u) = s := by
        rw [runOp, update_data_product]
        simp only [hfind]
      rw [hrun]
      exact ⟨⟨hbound, hpair⟩, hnames, hnn⟩
    | some r =>
      cases hdup : dupCheck s u r with
      | some e =>
        have hrun : runOp s (.updateOp (some n) u) = s := by
          rw [runOp, update_data_product]
          simp only [hfind, hdup]
        rw [hrun]
        exact ⟨⟨hbound, hpair⟩, hnames, hnn⟩
      | none =>
        by_cases hviol : updateViolation s.rows r
            { applyUpdates u r with updated_at := s.clock } = true
        · have hrun : runOp s (.updateOp (some n) u) = s := by
            rw [runOp, update_data_product]
            simp only [hfind, hdup]
            rw [if_pos hviol]
          rw [hrun]
          exact ⟨⟨hbound, hpair⟩, hnames, hnn⟩
        · have hviolF : updateViolation s.rows r
              { applyUpdates u r with updated_at := s.clock } = false := by
            simpa using hviol
          have hrn : r.id = some n := by
            simpa using List.find?_some
              (p := fun x : DataProduct => x.id == some n) hfind
          have hrmem : r ∈ s.rows := List.mem_of_find?_eq_some hfind
          obtain ⟨haid, hacr, _⟩ := applyUpdates_spec u r
          have hr'id : ({ applyUpdates u r with updated_at := s.clock } :
              DataProduct).id = some n := by
            show (applyUpdates u r).id = some n
            rw [haid, hrn]
          have hr'ca : ({ applyUpdates u r with updated_at := s.clock } :
              DataProduct).created_at = r.created_at := by
            show (applyUpdates u r).created_at = r.created_at
            exact hacr
          have honly : ∀ x ∈ s.rows, (x.id == some n) = true → x = r := by
            intro x hx hpx
            exact eq_of_same_id hpair hx hrmem (by simpa using hpx) hrn
          obtain ⟨w, hsn⟩ : ∃ w, (applyUpdates u r).schema_name = some w := by
            cases hsn0 : (applyUpdates u r).schema_name with
            | none =>
              exfalso
              apply hviol
              simp [updateViolation, hsn0]
            | some w => exact ⟨w, rfl⟩
          have hr'sn : ({ applyUpdates u r with updated_at := s.clock } :
              DataProduct).schema_name = some w := by
            show (applyUpdates u r).schema_name = some w
            exact hsn
          have hrun : runOp s (.updateOp (some n) u) =
              { rows := replaceFirst (fun x => x.id == some n)
                  { applyUpdates u r with updated_at := s.clock } s.rows
                nextId := s.nextId
                clock := s.clock + 1 } := by
            rw [runOp, update_ok_eq s n u r hfind hdup hviolF]
          rw [hrun]
          dsimp only [SvcInv, WF, NamesOK, NoNullName]
          refine ⟨⟨?_, ?_⟩, ?_, ?_⟩
          · intro x hx
            rcases mem_replaceFirst hx with ⟨rfl, _⟩ | hx'
            · obtain ⟨hbr, hc1, hc2⟩ := hbound r hrmem
              refine ⟨?_, ?_, ?_⟩
              · rw [hr'id]
                obtain ⟨ii, hii, hlt⟩ := idBound hbr
                have : ii = n := by
                  rw [hii] at hrn
                  exact Option.some.inj hrn
                subst this
                simpa using hlt
              · rw [hr'ca]
                omega
              · show s.clock < s.clock + 1
                exact Nat.lt_succ_self _
            · obtain ⟨hb, hc1, hc2⟩ := hbound x hx'
              exact ⟨hb, by omega, by omega⟩
          · refine pairwise_replaceFirst hpair ?_
            intro x hxmem hpx y
            have hxid : x.id = some n := by simpa using hpx
            constructor
            · intro hxy
              show ({ applyUpdates u r with updated_at := s.clock } :
                DataProduct).id ≠ y.id
              rw [hr'id, ← hxid]
              exact hxy
            · intro hyx
              show y.id ≠ ({ applyUpdates u r with updated_at := s.clock } :
                DataProduct).id
              rw [hr'id, ← hxid]
              exact hyx
          · intro v
            have hgen : ((({ applyUpdates u r with updated_at := s.clock } :
                  DataProduct).schema_name == some v) = true →
                  (r.schema_name == some v) = true) →
                (replaceFirst (fun x => x.id == some n)
                  { applyUpdates u r with updated_at := s.clock } s.rows).countP
                  (fun x => x.schema_name == some v) ≤ 1 := by
              intro himp
              refine le_trans (countP_replaceFirst_le _ _ _ _ ?_) (hnames v)
              intro x hx hpx hq
              rw [honly x hx hpx]
              exact himp hq
            by_cases hw : some w = r.schema_name
            · apply hgen
              intro hq
              rw [hr'sn] at hq
              rw [← hw]
              exact hq
            · have hany : s.rows.any
                  (fun x => x.schema_name == some w) = false := by
                cases hca : s.rows.any (fun x => x.schema_name == some w) with
                | false => rfl
                | true =>
                  exfalso
                  apply hviol
                  simp [updateViolation, hsn, hw, hca]
              have hz : s.rows.countP
                  (fun x => x.schema_name == some w) = 0 :=
                List.countP_eq_zero.mpr (by simpa using List.any_eq_false.mp hany)
              by_cases hvw : v = w
              · subst hvw
                refine le_trans (countP_replaceFirst_le_succ _ _ _ _) ?_
                rw [hz]
                split <;> omega
              · apply hgen
                intro hq
                rw [hr'sn] at hq
                exfalso
                have hwv : w = v := by simpa using hq
                exact hvw hwv.symm
          · intro x hx
            rcases mem_replaceFirst hx with ⟨rfl, _⟩ | hx'
            · rw [hr'sn]
              simp
            · exact hnn x hx'

lemma inv_delete (s : DBState) (i : Option Nat) (h : SvcInv s) :
    SvcInv (runOp s (.deleteOp i)) := by
  obtain ⟨⟨hbound, hpair⟩, hnames, hnn⟩ := h
  cases i with
  | none => exact ⟨⟨hbound, hpair⟩, hnames, hnn⟩
  | some n =>
    cases hfind : s.rows.find? (fun x => x.id == some n) with
    | none =>
      have hrun : runOp s (.deleteOp (some n)) = s := by
        rw [runOp, delete_data_product]
        simp only [hfind]
      rw [hrun]
      exact ⟨⟨hbound, hpair⟩, hnames, hnn⟩
    | some r =>
      have hrun : runOp s (.deleteOp (some n)) =
          { s with rows := s.rows.eraseP (fun x => x.id == some n) } := by
        rw [runOp, delete_data_product]
        simp only [hfind]
      rw [hrun]
      have hsub := List.eraseP_sublist (p := fun x : DataProduct => x.id == some n) s.rows
      refine ⟨⟨?_, hpair.sublist hsub⟩, ?_, ?_⟩
      · intro x hx
        exact hbound x (hsub.subset hx)
      · intro v
        exact le_trans (hsub.countP_le _) (hnames v)
      · intro x hx
        exact hnn x (hsub.subset hx)

lemma inv_runOp (s : DBState) (op : Op) (h : SvcInv s) : SvcInv (runOp s op) := by
  cases op with
  | create d => exact inv_create s d h
  | updateOp i u => exact inv_update s i u h
  | deleteOp i => exact inv_delete s i h

lemma inv_init : SvcInv initState := by
  refine ⟨by decide, ?_, ?_⟩
  · intro v
    simp [initState]
  · intro r hr
    simp [initState] at hr

lemma inv_foldl (ops : List Op) (s0 : DBState) (h : SvcInv s0) :
    SvcInv (ops.foldl runOp s0) := by
  induction ops generalizing s0 with
  | nil => exact h
  | cons op ops ih => exact ih (runOp s0 op) (inv_runOp s0 op h)

lemma reachable_svcInv {s : DBState} (h : reachable s) : SvcInv s := by
  rcases h with ⟨ops, rfl⟩
  exact inv_foldl ops initState inv_init

/-- Every reachable state is well-formed: ids are distinct and below the
autoincrement counter, and all timestamps predate the clock (this discharges
the freshness hypotheses of the update theorems). -/
lemma reachable_WF {s : DBState} (h : reachable s) : WF s :=
  (reachable_svcInv h).1

lemma pairwise_ne_names {l : List DataProduct}
    (hcount : ∀ v : String, l.countP (fun r => r.schema_name == some v) ≤ 1)
    (hnn : ∀ r ∈ l, r.schema_name ≠ none) :
    l.Pairwise (fun a b => a.schema_name ≠ b.schema_name) := by
  induction l with
  | nil => exact List.Pairwise.nil
  | cons x xs ih =>
    refine List.pairwise_cons.mpr ⟨?_, ?_⟩
    · intro y hy heq
      obtain ⟨v, hv⟩ : ∃ v, x.schema_name = some v := by
        cases hx : x.schema_name with
        | none => exact absurd hx (hnn x (List.mem_cons_self x xs))
        | some v => exact ⟨v, rfl⟩
      have hc := hcount v
      have hqx : (fun r : DataProduct => r.schema_name == some v) x = true := by
        simp [hv]
      rw [List.countP_cons, if_pos hqx] at hc
      have hzero : xs.countP (fun r => r.schema_name == some v) = 0 := by omega
      have hy' := List.countP_eq_zero.mp hzero y hy
      apply hy'
      simp [← heq, hv]
    · refine ih (fun v => ?_) (fun r hr => hnn r (List.mem_cons_of_mem _ hr))
      have := hcount v
      rw [List.countP_cons] at this
      omega

/-! ### C3: the uniqueness invariant -/

/-- C3: `schema_name` uniqueness is an invariant of the whole table preserved
by every operation: in every state reachable from the empty store by any
sequence of create/update/delete calls, no two stored records share the same
`schema_name`; and after any further call on such a state the property still
holds — a write that would violate it is rejected (by the service pre-check
or by the storage engine's constraints at commit) and is never applied. -/
theorem schema_name_unique_invariant (s : DBState) (h : reachable s) :
    s.rows.Pairwise (fun a b => a.schema_name ≠ b.schema_name) ∧
    ∀ op : Op, (runOp s op).rows.Pairwise
      (fun a b => a.schema_name ≠ b.schema_name) := by
  have hinv := reachable_svcInv h
  refine ⟨pairwise_ne_names hinv.2.1 hinv.2.2, fun op => ?_⟩
  have hinv' := inv_runOp s op hinv
  exact pairwise_ne_names hinv'.2.1 hinv'.2.2

/-- Concrete instantiation of `schema_name_unique_invariant` after one
create, and after a duplicate create is attempted on the result. -/
theorem schema_name_unique_invariant_witness :
    (runOp initState
      (.create { schema_name := "sales_analytics", description := none,
                 owner := "a", creation_date := none })).rows.Pairwise
      (fun a b => a.schema_name ≠ b.schema_name) ∧
    (runOp (runOp initState
      (.create { schema_name := "sales_analytics", description := none,
                 owner := "a", creation_date := none }))
      (.create { schema_name := "sales_analytics", description := none,
                 owner := "b", creation_date := none })).rows.Pairwise
      (fun a b => a.schema_name ≠ b.schema_name) :=
  ⟨(schema_name_unique_invariant _
      ⟨[.create { schema_name := "sales_analytics", description := none,
                  owner := "a", creation_date := none }], rfl⟩).1,
   (schema_name_unique_invariant _
      ⟨[.create { schema_name := "sales_analytics", description := none,
                  owner := "a", creation_date := none }], rfl⟩).2
     (.create { schema_name := "sales_analytics", description := none,
                owner := "b", creation_date := none })⟩
